import Mathlib

/-!
Formal model of the entity-mover movement engine (src/data/scripts/utils.ts).

The source is a Minecraft Bedrock script: a `Vector3` geometry utility and a
`MovementManager` that serializes directional movement "legs" on a promise
chain.  Each leg is driven by a periodic movement callback (registered with
`system.runInterval`, its handle pushed into `intervalHandles`) and a
self-rescheduling rotation callback (registered with `system.run`, its handle
discarded).  We embed the engine as explicit state passing: numbers are reals,
the host scheduler becomes an explicit handle allocator with at most one live
movement task and one pending rotation task, world queries become per-step
observations supplied by an environment, and every external effect is recorded
in a trace.
-/

namespace EntityMover

/-- Immutable 3-D vector over the reals, mirroring `class Vector3`. -/
structure Vector3 where
  x : ℝ
  y : ℝ
  z : ℝ

/-- Source `Vector3.scale`: componentwise multiplication by a factor. -/
def Vector3.scale (v : Vector3) (factor : ℝ) : Vector3 :=
  ⟨v.x * factor, v.y * factor, v.z * factor⟩

/-- Source `Vector3.add`. -/
def Vector3.add (v w : Vector3) : Vector3 :=
  ⟨v.x + w.x, v.y + w.y, v.z + w.z⟩

/-- Source `Vector3.subtract`. -/
def Vector3.subtract (v w : Vector3) : Vector3 :=
  ⟨v.x - w.x, v.y - w.y, v.z - w.z⟩

/-- Source `Vector3.floor`: `Math.floor` on each axis (floor toward −∞). -/
noncomputable def Vector3.floor (v : Vector3) : Vector3 :=
  ⟨(⌊v.x⌋ : ℝ), (⌊v.y⌋ : ℝ), (⌊v.z⌋ : ℝ)⟩

/-- Source `Vector3.center`: horizontal block-center, `y` untouched. -/
noncomputable def Vector3.center (v : Vector3) : Vector3 :=
  ⟨(⌊v.x⌋ : ℝ) + 0.5, v.y, (⌊v.z⌋ : ℝ) + 0.5⟩

/-- Source `Vector3.length`: Euclidean norm. -/
noncomputable def Vector3.length (v : Vector3) : ℝ :=
  Real.sqrt (v.x * v.x + v.y * v.y + v.z * v.z)

/-- Source `calculateYaw`: `Math.atan2(v.z, v.x) * (180/π) - 90`.
`Complex.arg (x + z*I)` is exactly `atan2(z, x)`. -/
noncomputable def calculateYaw (v : Vector3) : ℝ :=
  Complex.arg ⟨v.x, v.z⟩ * (180 / Real.pi) - 90

/-- The eight compass direction names of the source `directions` table. -/
inductive Dir
  | north
  | south
  | west
  | east
  | northeast
  | southeast
  | southwest
  | northwest
deriving DecidableEq

/-- Source `directions` record in `executeMove`; diagonals are scaled by
`Math.SQRT1_2 = √(1/2)`. -/
noncomputable def directions : Dir → Vector3
  | .north => ⟨0, 0, -1⟩
  | .south => ⟨0, 0, 1⟩
  | .west => ⟨-1, 0, 0⟩
  | .east => ⟨1, 0, 0⟩
  | .northeast => Vector3.scale ⟨1, 0, -1⟩ (Real.sqrt (1 / 2))
  | .southeast => Vector3.scale ⟨1, 0, 1⟩ (Real.sqrt (1 / 2))
  | .southwest => Vector3.scale ⟨-1, 0, 1⟩ (Real.sqrt (1 / 2))
  | .northwest => Vector3.scale ⟨-1, 0, -1⟩ (Real.sqrt (1 / 2))

/-- Source `MovementConfig`: an optional `canJump` flag; `none` models the
property being absent from the object literal. -/
structure MovementConfig where
  canJump : Option Bool
deriving DecidableEq

/-- JS object spread `{...base, ...override}` restricted to the `canJump`
field: the override wins whenever it carries the property. -/
def mergeConfig (base override : MovementConfig) : MovementConfig :=
  ⟨match override.canJump with
    | some b => some b
    | none => base.canJump⟩

/-- Constructor merge `{ canJump: true, ...config }`. -/
def initialConfig (cfg : MovementConfig) : MovementConfig :=
  mergeConfig ⟨some true⟩ cfg

/-- Source `EntityMovementComponent` as used here: `defaultValue` may be
absent (`none` models `undefined`). -/
structure EntityMovementComponent where
  defaultValue : Option ℝ

/-- One observation of the world/agent, answering the queries a single
scheduler callback makes: `isValid`, `isOnGround`, `location`, the
`getBlockFromRay` probe (did it hit a block, and is the block above air),
and `getRotation` (read only to build the action-bar status text). -/
structure Obs where
  valid : Bool
  onGround : Bool
  location : Vector3
  rayHitsBlock : Bool
  blockAboveIsAir : Bool
  rotX : ℝ
  rotY : ℝ

/-- Every externally visible effect the engine performs, in order. -/
inductive Effect
  | setCurrentValue (v : ℝ)
  | resetToDefaultValue
  | applyImpulse (v : Vector3)
  | setRotation (x y : ℝ)
  | teleport (p : Vector3)
  | runCommand (x y : ℝ)
  | clearRun (handle : Nat)
  | onStart (direction : Dir) (distance : ℝ) (canJump : Option Bool)
  | onStop
  | onComplete

/-- Manager-owned state: `isStopped`, the tracked `intervalHandles` list, the
constructor-merged config, and which of the three callbacks are registered. -/
structure MState where
  isStopped : Bool
  intervalHandles : List Nat
  config : MovementConfig
  hasOnStart : Bool
  hasOnStop : Bool
  hasOnComplete : Bool

/-- Host scheduler state: a fresh-handle counter, the live periodic movement
task (if any) and the pending one-shot rotation task (if any), each tagged
with the handle `system.runInterval` / `system.run` returned for it. -/
structure Sched where
  nextHandle : Nat
  moveTask : Option Nat
  rotTask : Option Nat

/-- Source `system.clearRun(handle)`: cancels whichever scheduled task owns
the handle. -/
def Sched.clearRun (s : Sched) (h : Nat) : Sched :=
  { s with
    moveTask := if s.moveTask = some h then none else s.moveTask,
    rotTask := if s.rotTask = some h then none else s.rotTask }

/-- The `this.intervalHandles = []` half of `clearAllIntervals`. -/
def clearHandles (m : MState) : MState :=
  { m with intervalHandles := [] }

/-- The `forEach(handle => system.clearRun(handle))` half of
`clearAllIntervals`, applied to the scheduler. -/
def clearSched (hs : List Nat) (s : Sched) : Sched :=
  hs.foldl Sched.clearRun s

/-- Trace of the `clearRun` calls `clearAllIntervals` issues. -/
def clearEvents (hs : List Nat) : List Effect :=
  hs.map Effect.clearRun

/-- How a leg's promise got resolved: reaching the distance target
(`success`) or the stop/invalid abort check (`abort`). -/
inductive FinishKind
  | success
  | abort
deriving DecidableEq

/-- Per-leg mutable state: the locals of one `executeMove` call.
`resolvedBy` is ghost instrumentation recording that (and how) `resolve()`
fired. -/
structure LegRun where
  distance : ℝ
  canJump : Bool
  impulseVector : Vector3
  startPosition : Vector3
  distanceTraveled : ℝ
  climbing : Bool
  wasOnGround : Bool
  resolvedBy : Option FinishKind

/-- A promise resolves at most once: later `resolve()` calls are no-ops. -/
def resolveLeg (l : LegRun) (k : FinishKind) : LegRun :=
  { l with
    resolvedBy :=
      match l.resolvedBy with
      | none => some k
      | some r => some r }

/-- The whole in-flight system: manager state, scheduler state, current leg. -/
structure Sys where
  m : MState
  sched : Sched
  leg : LegRun

/-- Source `moveEntity` (the `system.runInterval` callback of a leg), as a
function of the current system state and this tick's world observation. -/
noncomputable def moveStep (sys : Sys) (obs : Obs) : Sys × List Effect :=
  if sys.m.isStopped || !obs.valid then
    ({ m := clearHandles sys.m,
       sched := clearSched sys.m.intervalHandles sys.sched,
       leg := resolveLeg sys.leg FinishKind.abort },
     clearEvents sys.m.intervalHandles)
  else if sys.leg.canJump && obs.rayHitsBlock && obs.blockAboveIsAir &&
      obs.onGround && !sys.leg.climbing then
    ({ sys with leg := { sys.leg with climbing := true, wasOnGround := obs.onGround } },
     [Effect.applyImpulse ⟨0, 0.5, 0⟩])
  else if sys.leg.climbing && !obs.onGround then
    ({ sys with leg := { sys.leg with wasOnGround := obs.onGround } },
     [Effect.applyImpulse ⟨sys.leg.impulseVector.x * 0.5, 0, sys.leg.impulseVector.z * 0.5⟩])
  else if sys.leg.climbing && obs.onGround then
    ({ sys with leg := { sys.leg with climbing := false, wasOnGround := obs.onGround } },
     [])
  else if obs.onGround then
    if sys.leg.distanceTraveled +
        Vector3.length (Vector3.subtract (Vector3.center obs.location) sys.leg.startPosition) <
        sys.leg.distance then
      ({ sys with leg := { sys.leg with
          distanceTraveled := sys.leg.distanceTraveled +
            Vector3.length (Vector3.subtract (Vector3.center obs.location) sys.leg.startPosition),
          startPosition := Vector3.center obs.location,
          wasOnGround := obs.onGround } },
       [Effect.applyImpulse sys.leg.impulseVector])
    else
      ({ m := clearHandles sys.m,
         sched := clearSched sys.m.intervalHandles sys.sched,
         leg := { sys.leg with
           distanceTraveled := sys.leg.distanceTraveled +
             Vector3.length (Vector3.subtract (Vector3.center obs.location) sys.leg.startPosition),
           startPosition := Vector3.center obs.location,
           wasOnGround := obs.onGround,
           resolvedBy := some FinishKind.success } },
       clearEvents sys.m.intervalHandles ++
         [Effect.resetToDefaultValue, Effect.teleport (Vector3.center obs.location)])
  else
    ({ sys with leg := { sys.leg with wasOnGround := obs.onGround } }, [])

/-- Source `updateRotation` (the self-rescheduling `system.run` callback),
as a function of system state and observation.  The rescheduling branch
allocates a fresh handle for the next one-shot run; the source discards that
handle instead of pushing it into `intervalHandles`. -/
noncomputable def rotStep (sys : Sys) (obs : Obs) : Sys × List Effect :=
  if sys.m.isStopped || !obs.valid then
    ({ m := clearHandles sys.m,
       sched := clearSched sys.m.intervalHandles sys.sched,
       leg := resolveLeg sys.leg FinishKind.abort },
     clearEvents sys.m.intervalHandles)
  else if sys.leg.distanceTraveled < sys.leg.distance then
    ({ sys with
       sched := { nextHandle := sys.sched.nextHandle + 1,
                  moveTask := sys.sched.moveTask,
                  rotTask := some sys.sched.nextHandle } },
     [Effect.setRotation 0 (calculateYaw sys.leg.impulseVector),
      Effect.runCommand obs.rotX obs.rotY])
  else
    (sys, [])

/-- Source `stop()` body up to its return: set `isStopped`, run
`clearAllIntervals`, fire `onStop` when registered. -/
def stopCall (m : MState) (s : Sched) : MState × Sched × List Effect :=
  ({ clearHandles m with isStopped := true },
   clearSched m.intervalHandles s,
   clearEvents m.intervalHandles ++ if m.hasOnStop then [Effect.onStop] else [])

/-- The system state `executeMove` has built right before it registers the
movement interval: the interval handle `s.nextHandle` is allocated, pushed
into `intervalHandles`, and installed as the movement task.  `rotTask` starts
out empty (a one-shot left over from an already-resolved previous leg would,
in the source, only observe that its own leg finished and do nothing, so it
is dropped at the leg boundary). -/
noncomputable def setupSys (m : MState) (s : Sched) (c : EntityMovementComponent)
    (direction : Dir) (distance : ℝ) (canJump : Bool) (obs0 : Obs) : Sys :=
  { m := { m with intervalHandles := m.intervalHandles ++ [s.nextHandle] },
    sched := { nextHandle := s.nextHandle + 1, moveTask := some s.nextHandle, rotTask := none },
    leg := { distance := distance,
             canJump := canJump,
             impulseVector := Vector3.scale (directions direction) (Option.getD c.defaultValue 0.1),
             startPosition := Vector3.center obs0.location,
             distanceTraveled := 0,
             climbing := false,
             wasOnGround := obs0.onGround,
             resolvedBy := none } }

/-- Source `executeMove` up to the end of its synchronous body: the initial
validity check, the movement-component lookup (reading `defaultValue` off a
missing component throws, rejecting the promise: `Except.error`), the
speed/impulse/start-position initialization with its `setCurrentValue(0)` and
initial `setRotation`, registration of the movement interval, and the first,
synchronous `updateRotation()` call. -/
noncomputable def setupLeg (m : MState) (s : Sched) (comp : Option EntityMovementComponent)
    (direction : Dir) (distance : ℝ) (canJump : Bool) (obs0 : Obs) :
    Except Unit (Sys × List Effect) :=
  if !obs0.valid then
    Except.ok
      ({ m := clearHandles m,
         sched := clearSched m.intervalHandles s,
         leg := { distance := distance, canJump := canJump,
                  impulseVector := ⟨0, 0, 0⟩, startPosition := ⟨0, 0, 0⟩,
                  distanceTraveled := 0, climbing := false,
                  wasOnGround := obs0.onGround, resolvedBy := some FinishKind.abort } },
       clearEvents m.intervalHandles)
  else
    match comp with
    | none => Except.error ()
    | some c =>
      Except.ok
        ((rotStep (setupSys m s c direction distance canJump obs0) obs0).1,
         [Effect.setCurrentValue 0,
          Effect.setRotation 0
            (calculateYaw (Vector3.scale (directions direction) (Option.getD c.defaultValue 0.1)))] ++
           (rotStep (setupSys m s c direction distance canJump obs0) obs0).2)

/-- Which scheduled callback the host fires at a given opportunity. -/
inductive TaskKind
  | move
  | rot
deriving DecidableEq

/-- One scheduling opportunity during a leg: the caller may invoke `stop()`
just before it (`stopBefore`), then the host fires the chosen kind of task if
one is live, with `obs` answering that callback's world queries. -/
structure StepInp where
  stopBefore : Bool
  fire : TaskKind
  obs : Obs

/-- Apply an external `stop()` call to an in-flight system. -/
def sysStop (sys : Sys) : Sys × List Effect :=
  ({ m := (stopCall sys.m sys.sched).1,
     sched := (stopCall sys.m sys.sched).2.1,
     leg := sys.leg },
   (stopCall sys.m sys.sched).2.2)

/-- Fire the selected kind of scheduled task, if one is still registered.
Firing the one-shot rotation task consumes its pending handle before the
callback may reschedule. -/
noncomputable def sysFire (sys : Sys) (fire : TaskKind) (obs : Obs) : Sys × List Effect :=
  match fire with
  | .move =>
    match sys.sched.moveTask with
    | some _ => moveStep sys obs
    | none => (sys, [])
  | .rot =>
    match sys.sched.rotTask with
    | some _ => rotStep { sys with sched := { sys.sched with rotTask := none } } obs
    | none => (sys, [])

/-- One scheduling opportunity: optional external `stop()` call, then the
selected task fires. -/
noncomputable def sysStep (sys : Sys) (inp : StepInp) : Sys × List Effect :=
  if inp.stopBefore then
    ((sysFire (sysStop sys).1 inp.fire inp.obs).1,
     (sysStop sys).2 ++ (sysFire (sysStop sys).1 inp.fire inp.obs).2)
  else sysFire sys inp.fire inp.obs

/-- Drive one leg's scheduled callbacks until its promise resolves, for at
most `fuel` scheduling opportunities; `none` means the leg is still pending
(the documented liveness gap). -/
noncomputable def runLegAux (env : Nat → StepInp) :
    Nat → Nat → Sys → List Effect → Option (Sys × List Effect)
  | 0, _, sys, acc =>
    if sys.leg.resolvedBy.isSome then some (sys, acc) else none
  | fuel + 1, i, sys, acc =>
    if sys.leg.resolvedBy.isSome then some (sys, acc)
    else runLegAux env fuel (i + 1) (sysStep sys (env i)).1 (acc ++ (sysStep sys (env i)).2)

/-- One full `executeMove` call: synchronous setup, then scheduled callbacks
until resolution.  `some (Except.error _)` is the rejected promise from the
missing-component throw. -/
noncomputable def runLeg (m : MState) (s : Sched) (comp : Option EntityMovementComponent)
    (direction : Dir) (distance : ℝ) (canJump : Bool) (obs0 : Obs)
    (env : Nat → StepInp) (fuel : Nat) : Option (Except Unit (Sys × List Effect)) :=
  match setupLeg m s comp direction distance canJump obs0 with
  | Except.error e => some (Except.error e)
  | Except.ok (sys, tr) => (runLegAux env fuel 0 sys tr).map Except.ok

/-- One queued leg together with the environment that drives it: whether the
caller stops the manager right before the leg's turn, the validity answer at
the turn, the leg arguments, the setup observation, the per-step environment
and the scheduling-opportunity budget. -/
structure LegCase where
  stopBeforeTurn : Bool
  validAtTurn : Bool
  direction : Dir
  distance : ℝ
  options : MovementConfig
  obs0 : Obs
  env : Nat → StepInp
  fuel : Nat

/-- The body of the continuation `move()` appends to the queue chain, given
the manager/scheduler state and pending trace after any externally injected
`stop()`: re-check `isStopped`/validity (no-op resolve after clearing
handles), otherwise fire `onStart` with the merged config and run
`executeMove`. -/
noncomputable def legTurnCore (comp : Option EntityMovementComponent) (lc : LegCase)
    (m0 : MState) (s0 : Sched) (tr0 : List Effect) :
    Option (Except Unit (MState × Sched × List Effect)) :=
  if m0.isStopped || !lc.validAtTurn then
    some (Except.ok (clearHandles m0, clearSched m0.intervalHandles s0,
      tr0 ++ clearEvents m0.intervalHandles))
  else
    match runLeg m0 s0 comp lc.direction lc.distance
        (Option.getD (mergeConfig m0.config lc.options).canJump false) lc.obs0 lc.env lc.fuel with
    | none => none
    | some (Except.error e) => some (Except.error e)
    | some (Except.ok (sys, tr)) =>
      some (Except.ok (sys.m, sys.sched,
        tr0 ++
          (if m0.hasOnStart then
            [Effect.onStart lc.direction lc.distance (mergeConfig m0.config lc.options).canJump]
           else []) ++ tr))

/-- One queued leg's turn: the caller may call `stop()` just before the
previous leg's resolution hands control to this continuation. -/
noncomputable def legTurn (m : MState) (s : Sched) (comp : Option EntityMovementComponent)
    (lc : LegCase) : Option (Except Unit (MState × Sched × List Effect)) :=
  if lc.stopBeforeTurn then
    legTurnCore comp lc (stopCall m s).1 (stopCall m s).2.1 (stopCall m s).2.2
  else
    legTurnCore comp lc m s []

/-- The promise chain built by the `move()` calls: legs run strictly in
enqueue order, each awaited before the next; a rejection (missing component)
poisons the rest of the chain. -/
noncomputable def drain (comp : Option EntityMovementComponent) :
    MState → Sched → List LegCase → Option (Except Unit (MState × Sched × List Effect))
  | m, s, [] => some (Except.ok (m, s, []))
  | m, s, lc :: rest =>
    match legTurn m s comp lc with
    | none => none
    | some (Except.error e) => some (Except.error e)
    | some (Except.ok (m1, s1, tr)) =>
      match drain comp m1 s1 rest with
      | none => none
      | some (Except.error e) => some (Except.error e)
      | some (Except.ok (m2, s2, tr2)) => some (Except.ok (m2, s2, tr ++ tr2))

/-- Source `start()`: the queue's completion followed by the `onComplete`
callback.  A still-pending queue stays pending and a rejected queue stays
rejected (there is no catch handler). -/
noncomputable def startRun (comp : Option EntityMovementComponent) (m : MState) (s : Sched)
    (legs : List LegCase) : Option (Except Unit (MState × Sched × List Effect)) :=
  match drain comp m s legs with
  | some (Except.ok (m1, s1, tr)) =>
    some (Except.ok (m1, s1, tr ++ if m1.hasOnComplete then [Effect.onComplete] else []))
  | x => x

/-- Source `stop()`'s return value is `this.queue` itself: the bare drain of
the currently queued legs, with no `onComplete` continuation attached. -/
noncomputable def stopReturn (comp : Option EntityMovementComponent) (m : MState) (s : Sched)
    (legs : List LegCase) : Option (Except Unit (MState × Sched × List Effect)) :=
  drain comp m s legs

/-- Number of `onComplete` events in a trace. -/
def countOnComplete : List Effect → Nat
  | [] => 0
  | Effect.onComplete :: rest => countOnComplete rest + 1
  | _ :: rest => countOnComplete rest

/-- Number of `onStop` events in a trace. -/
def countOnStop : List Effect → Nat
  | [] => 0
  | Effect.onStop :: rest => countOnStop rest + 1
  | _ :: rest => countOnStop rest

/-- Number of `onStart` events in a trace. -/
def countOnStart : List Effect → Nat
  | [] => 0
  | Effect.onStart _ _ _ :: rest => countOnStart rest + 1
  | _ :: rest => countOnStart rest

/-- Number of `applyImpulse` events in a trace. -/
def countImpulse : List Effect → Nat
  | [] => 0
  | Effect.applyImpulse _ :: rest => countImpulse rest + 1
  | _ :: rest => countImpulse rest

/-- Number of `resetToDefaultValue` events in a trace. -/
def countReset : List Effect → Nat
  | [] => 0
  | Effect.resetToDefaultValue :: rest => countReset rest + 1
  | _ :: rest => countReset rest

/-- Number of `setCurrentValue` events in a trace. -/
def countSetCurrent : List Effect → Nat
  | [] => 0
  | Effect.setCurrentValue _ :: rest => countSetCurrent rest + 1
  | _ :: rest => countSetCurrent rest

/-- Project the resolved system state out of a leg outcome. -/
def legOutSys : Option (Except Unit (Sys × List Effect)) → Option Sys
  | some (Except.ok (sys, _)) => some sys
  | _ => none

/-- Project the trace out of a leg outcome. -/
def legOutTrace : Option (Except Unit (Sys × List Effect)) → Option (List Effect)
  | some (Except.ok (_, tr)) => some tr
  | _ => none

/-- Project the system state out of a setup outcome. -/
def setupSysOf : Except Unit (Sys × List Effect) → Option Sys
  | Except.ok (sys, _) => some sys
  | _ => none

/-- Project the final manager state out of a queue outcome. -/
def outState : Option (Except Unit (MState × Sched × List Effect)) → Option MState
  | some (Except.ok (m, _, _)) => some m
  | _ => none

/-- Project the trace out of a queue outcome. -/
def outTrace : Option (Except Unit (MState × Sched × List Effect)) → Option (List Effect)
  | some (Except.ok (_, _, tr)) => some tr
  | _ => none


-- Concrete fixtures used by witnesses and counterexamples

/-- A freshly constructed manager with all three callbacks registered. -/
def cM : MState := ⟨false, [], ⟨some true⟩, true, true, true⟩

/-- A stopped manager still holding a stale tracked handle. -/
def cMStopped : MState := ⟨true, [7], ⟨some true⟩, true, true, true⟩

/-- A manager tracking the movement-interval handle 0. -/
def cM6 : MState := ⟨false, [0], ⟨some true⟩, true, true, true⟩

/-- A fresh scheduler. -/
def cS : Sched := ⟨0, none, none⟩

/-- Valid grounded agent at a fractional position, no obstacle. -/
noncomputable def cObsStart : Obs := ⟨true, true, ⟨0.2, 0, 0.3⟩, false, false, 0, 0⟩

/-- The same agent one block east, still grounded, no obstacle. -/
noncomputable def cObsMoved : Obs := ⟨true, true, ⟨1.2, 0, 0.3⟩, false, false, 0, 0⟩

/-- An invalidated agent. -/
noncomputable def cObsInvalid : Obs := ⟨false, true, ⟨0, 0, 0⟩, false, false, 0, 0⟩

/-- Valid grounded agent facing a one-block obstacle with air above it. -/
noncomputable def cObsObstacle : Obs := ⟨true, true, ⟨0.2, 0, 0.3⟩, true, true, 0, 0⟩

/-- Environment: every opportunity fires the movement task on the moved agent. -/
noncomputable def cEnvMove : Nat → StepInp := fun _ => ⟨false, TaskKind.move, cObsMoved⟩

/-- Environment: every opportunity fires the movement task on an invalidated agent. -/
noncomputable def cEnvInvalid : Nat → StepInp := fun _ => ⟨false, TaskKind.move, cObsInvalid⟩

/-- A queued leg whose agent is already invalid when its turn arrives. -/
noncomputable def cLegInvalid : LegCase :=
  ⟨false, false, Dir.north, 5, ⟨none⟩, cObsStart, cEnvInvalid, 3⟩

/-- An in-flight leg: one block to go, grounded, not climbing. -/
noncomputable def cLeg : LegRun := ⟨1, true, ⟨0, 0, -1⟩, ⟨0.5, 0, 0.5⟩, 0, false, true, none⟩

/-- An in-flight system whose movement interval owns handle 0. -/
noncomputable def cSys : Sys := ⟨cM6, ⟨2, some 0, none⟩, cLeg⟩

/-- The state `cSys` reaches when the next movement tick meets its target. -/
noncomputable def cSysF6 : Sys :=
  ⟨⟨false, [], ⟨some true⟩, true, true, true⟩, ⟨2, none, none⟩,
   ⟨1, true, ⟨0, 0, -1⟩, ⟨1.5, 0, 0.5⟩, 1, false, true, some FinishKind.success⟩⟩

/-- The trace of that final movement tick. -/
noncomputable def cTrF6 : List Effect :=
  [Effect.clearRun 0, Effect.resetToDefaultValue, Effect.teleport ⟨1.5, 0, 0.5⟩]

/-- The state a zero-distance leg from `cM` reaches when its first movement
tick observes an invalidated agent. -/
noncomputable def cSysF9 : Sys :=
  ⟨⟨false, [], ⟨some true⟩, true, true, true⟩, ⟨1, none, none⟩,
   ⟨0, true, Vector3.scale (directions Dir.north) 1, ⟨0.5, 0, 0.5⟩, 0, false, true,
    some FinishKind.abort⟩⟩

/-- The trace of that aborted leg. -/
noncomputable def cTrF9 : List Effect :=
  [Effect.setCurrentValue 0,
   Effect.setRotation 0 (calculateYaw (Vector3.scale (directions Dir.north) 1)),
   Effect.clearRun 0]

-- ### Helper lemmas

theorem countOnComplete_append (a b : List Effect) :
    countOnComplete (a ++ b) = countOnComplete a + countOnComplete b := by
  induction a with
  | nil => simp [countOnComplete]
  | cons e rest ih => cases e <;> simp [countOnComplete, ih] <;> omega

theorem countOnStop_append (a b : List Effect) :
    countOnStop (a ++ b) = countOnStop a + countOnStop b := by
  induction a with
  | nil => simp [countOnStop]
  | cons e rest ih => cases e <;> simp [countOnStop, ih] <;> omega

theorem countOnStart_append (a b : List Effect) :
    countOnStart (a ++ b) = countOnStart a + countOnStart b := by
  induction a with
  | nil => simp [countOnStart]
  | cons e rest ih => cases e <;> simp [countOnStart, ih] <;> omega

theorem countImpulse_append (a b : List Effect) :
    countImpulse (a ++ b) = countImpulse a + countImpulse b := by
  induction a with
  | nil => simp [countImpulse]
  | cons e rest ih => cases e <;> simp [countImpulse, ih] <;> omega

theorem countReset_append (a b : List Effect) :
    countReset (a ++ b) = countReset a + countReset b := by
  induction a with
  | nil => simp [countReset]
  | cons e rest ih => cases e <;> simp [countReset, ih] <;> omega

theorem countOnComplete_clearEvents (hs : List Nat) : countOnComplete (clearEvents hs) = 0 := by
  induction hs with
  | nil => rfl
  | cons h rest ih => simpa [clearEvents, countOnComplete] using ih

theorem countOnStop_clearEvents (hs : List Nat) : countOnStop (clearEvents hs) = 0 := by
  induction hs with
  | nil => rfl
  | cons h rest ih => simpa [clearEvents, countOnStop] using ih

theorem countOnStart_clearEvents (hs : List Nat) : countOnStart (clearEvents hs) = 0 := by
  induction hs with
  | nil => rfl
  | cons h rest ih => simpa [clearEvents, countOnStart] using ih

theorem countImpulse_clearEvents (hs : List Nat) : countImpulse (clearEvents hs) = 0 := by
  induction hs with
  | nil => rfl
  | cons h rest ih => simpa [clearEvents, countImpulse] using ih

theorem countReset_clearEvents (hs : List Nat) : countReset (clearEvents hs) = 0 := by
  induction hs with
  | nil => rfl
  | cons h rest ih => simpa [clearEvents, countReset] using ih

theorem countReset_zero_not_mem (tr : List Effect) (h : countReset tr = 0) :
    Effect.resetToDefaultValue ∉ tr := by
  induction tr with
  | nil => simp
  | cons e rest ih =>
    cases e <;> simp [countReset] at h <;> simp [ih h]

theorem length_nonneg (v : Vector3) : 0 ≤ Vector3.length v :=
  Real.sqrt_nonneg _

-- Step-function invariants

theorem moveStep_isStopped (sys : Sys) (obs : Obs) :
    (moveStep sys obs).1.m.isStopped = sys.m.isStopped := by
  unfold moveStep
  split_ifs <;> rfl

theorem rotStep_isStopped (sys : Sys) (obs : Obs) :
    (rotStep sys obs).1.m.isStopped = sys.m.isStopped := by
  unfold rotStep
  split_ifs <;> rfl

theorem sysFire_isStopped (sys : Sys) (fire : TaskKind) (obs : Obs) :
    (sysFire sys fire obs).1.m.isStopped = sys.m.isStopped := by
  unfold sysFire
  cases fire with
  | move =>
    cases h : sys.sched.moveTask <;> simp [h, moveStep_isStopped]
  | rot =>
    cases h : sys.sched.rotTask <;> simp [h, rotStep_isStopped]

theorem sysStep_isStopped (sys : Sys) (inp : StepInp) :
    (sysStep sys inp).1.m.isStopped = (sys.m.isStopped || inp.stopBefore) := by
  unfold sysStep
  cases h : inp.stopBefore with
  | false => simp [h, sysFire_isStopped]
  | true => simp [h, sysFire_isStopped, sysStop, stopCall]

theorem moveStep_hasOnComplete (sys : Sys) (obs : Obs) :
    (moveStep sys obs).1.m.hasOnComplete = sys.m.hasOnComplete := by
  unfold moveStep
  split_ifs <;> rfl

theorem rotStep_hasOnComplete (sys : Sys) (obs : Obs) :
    (rotStep sys obs).1.m.hasOnComplete = sys.m.hasOnComplete := by
  unfold rotStep
  split_ifs <;> rfl

theorem sysFire_hasOnComplete (sys : Sys) (fire : TaskKind) (obs : Obs) :
    (sysFire sys fire obs).1.m.hasOnComplete = sys.m.hasOnComplete := by
  unfold sysFire
  cases fire with
  | move => cases h : sys.sched.moveTask <;> simp [h, moveStep_hasOnComplete]
  | rot => cases h : sys.sched.rotTask <;> simp [h, rotStep_hasOnComplete]

theorem sysStop_m (sys : Sys) :
    (sysStop sys).1.m = { clearHandles sys.m with isStopped := true } := rfl

theorem sysStop_leg (sys : Sys) : (sysStop sys).1.leg = sys.leg := rfl

theorem sysStop_tr (sys : Sys) : (sysStop sys).2 = (stopCall sys.m sys.sched).2.2 := rfl

theorem sysStep_hasOnComplete (sys : Sys) (inp : StepInp) :
    (sysStep sys inp).1.m.hasOnComplete = sys.m.hasOnComplete := by
  unfold sysStep
  cases hb : inp.stopBefore with
  | false => simp [sysFire_hasOnComplete]
  | true =>
    simp only [if_true]
    rw [sysFire_hasOnComplete, sysStop_m]
    rfl

theorem moveStep_resolve_clears (sys : Sys) (obs : Obs) (h : sys.leg.resolvedBy = none) :
    (moveStep sys obs).1.leg.resolvedBy.isSome → (moveStep sys obs).1.m.intervalHandles = [] := by
  unfold moveStep
  split_ifs <;> intro hr <;> simp_all [clearHandles, resolveLeg]

theorem rotStep_resolve_clears (sys : Sys) (obs : Obs) (h : sys.leg.resolvedBy = none) :
    (rotStep sys obs).1.leg.resolvedBy.isSome → (rotStep sys obs).1.m.intervalHandles = [] := by
  unfold rotStep
  split_ifs <;> intro hr <;> simp_all [clearHandles, resolveLeg]

theorem sysFire_resolve_clears (sys : Sys) (fire : TaskKind) (obs : Obs)
    (h : sys.leg.resolvedBy = none) :
    (sysFire sys fire obs).1.leg.resolvedBy.isSome →
    (sysFire sys fire obs).1.m.intervalHandles = [] := by
  unfold sysFire
  cases fire with
  | move =>
    cases hm : sys.sched.moveTask
    · simp [h]
    · exact moveStep_resolve_clears _ _ h
  | rot =>
    cases hm : sys.sched.rotTask
    · simp [h]
    · exact rotStep_resolve_clears _ _ h

theorem sysStep_resolve_clears (sys : Sys) (inp : StepInp) (h : sys.leg.resolvedBy = none) :
    (sysStep sys inp).1.leg.resolvedBy.isSome → (sysStep sys inp).1.m.intervalHandles = [] := by
  unfold sysStep
  cases hb : inp.stopBefore with
  | false => simpa using sysFire_resolve_clears sys inp.fire inp.obs h
  | true =>
    simp only [if_true]
    exact sysFire_resolve_clears _ inp.fire inp.obs (by rw [sysStop_leg]; exact h)

theorem moveStep_dist (sys : Sys) (obs : Obs) :
    sys.leg.distanceTraveled ≤ (moveStep sys obs).1.leg.distanceTraveled := by
  unfold moveStep
  split_ifs <;>
    simp [resolveLeg, le_add_of_nonneg_right (length_nonneg _)]

theorem rotStep_dist (sys : Sys) (obs : Obs) :
    sys.leg.distanceTraveled ≤ (rotStep sys obs).1.leg.distanceTraveled := by
  unfold rotStep
  split_ifs <;> simp [resolveLeg]

theorem sysFire_dist (sys : Sys) (fire : TaskKind) (obs : Obs) :
    sys.leg.distanceTraveled ≤ (sysFire sys fire obs).1.leg.distanceTraveled := by
  unfold sysFire
  cases fire with
  | move => cases hm : sys.sched.moveTask <;> simp [moveStep_dist]
  | rot =>
    cases hm : sys.sched.rotTask
    · simp [hm]
    · simp only [hm]
      exact rotStep_dist { sys with sched := { sys.sched with rotTask := none } } obs

theorem sysStep_dist (sys : Sys) (inp : StepInp) :
    sys.leg.distanceTraveled ≤ (sysStep sys inp).1.leg.distanceTraveled := by
  unfold sysStep
  cases hb : inp.stopBefore with
  | false => simpa using sysFire_dist sys inp.fire inp.obs
  | true =>
    simp only [if_true]
    calc sys.leg.distanceTraveled = (sysStop sys).1.leg.distanceTraveled := by rw [sysStop_leg]
      _ ≤ _ := sysFire_dist _ inp.fire inp.obs

-- Emission shapes of the step functions

theorem stopCall_counts (m : MState) (s : Sched) :
    countOnComplete (stopCall m s).2.2 = 0 ∧ countOnStart (stopCall m s).2.2 = 0 ∧
    countImpulse (stopCall m s).2.2 = 0 ∧ countReset (stopCall m s).2.2 = 0 := by
  unfold stopCall
  cases h : m.hasOnStop <;>
    simp [h, countOnComplete_append, countOnStart_append, countImpulse_append, countReset_append,
      countOnComplete_clearEvents, countOnStart_clearEvents, countImpulse_clearEvents,
      countReset_clearEvents, countOnComplete, countOnStart, countImpulse, countReset]

theorem moveStep_counts (sys : Sys) (obs : Obs) :
    countOnComplete (moveStep sys obs).2 = 0 ∧ countOnStart (moveStep sys obs).2 = 0 := by
  unfold moveStep
  split_ifs <;>
    simp [countOnComplete_append, countOnStart_append, countOnComplete_clearEvents,
      countOnStart_clearEvents, countOnComplete, countOnStart]

theorem rotStep_counts (sys : Sys) (obs : Obs) :
    countOnComplete (rotStep sys obs).2 = 0 ∧ countOnStart (rotStep sys obs).2 = 0 ∧
    countReset (rotStep sys obs).2 = 0 ∧ countImpulse (rotStep sys obs).2 = 0 := by
  unfold rotStep
  split_ifs <;>
    simp [countOnComplete_clearEvents, countOnStart_clearEvents, countReset_clearEvents,
      countImpulse_clearEvents, countOnComplete, countOnStart, countReset, countImpulse]

theorem sysFire_counts (sys : Sys) (fire : TaskKind) (obs : Obs) :
    countOnComplete (sysFire sys fire obs).2 = 0 ∧ countOnStart (sysFire sys fire obs).2 = 0 := by
  unfold sysFire
  cases fire with
  | move =>
    cases hm : sys.sched.moveTask <;>
      simp [countOnComplete, countOnStart, moveStep_counts]
  | rot =>
    cases hm : sys.sched.rotTask <;>
      simp [countOnComplete, countOnStart, rotStep_counts]

theorem sysStep_counts (sys : Sys) (inp : StepInp) :
    countOnComplete (sysStep sys inp).2 = 0 ∧ countOnStart (sysStep sys inp).2 = 0 := by
  unfold sysStep
  cases hb : inp.stopBefore with
  | false => simpa using sysFire_counts sys inp.fire inp.obs
  | true =>
    simp only [if_true, countOnComplete_append, countOnStart_append]
    have h1 := sysFire_counts (sysStop sys).1 inp.fire inp.obs
    have h2 := stopCall_counts sys.m sys.sched
    rw [sysStop_tr]
    omega

/-- A step out of an unresolved state either emits no `resetToDefaultValue`
or ends in the success resolution. -/
theorem moveStep_reset (sys : Sys) (obs : Obs) :
    countReset (moveStep sys obs).2 = 0 ∨
    (moveStep sys obs).1.leg.resolvedBy = some FinishKind.success := by
  unfold moveStep
  split_ifs <;>
    simp [countReset_append, countReset_clearEvents, countReset]

theorem sysFire_reset (sys : Sys) (fire : TaskKind) (obs : Obs) :
    countReset (sysFire sys fire obs).2 = 0 ∨
    (sysFire sys fire obs).1.leg.resolvedBy = some FinishKind.success := by
  unfold sysFire
  cases fire with
  | move =>
    cases hm : sys.sched.moveTask
    · simp [countReset]
    · simpa using moveStep_reset sys obs
  | rot =>
    cases hm : sys.sched.rotTask
    · simp [countReset]
    · exact Or.inl (rotStep_counts _ obs).2.2.1

theorem sysStep_reset (sys : Sys) (inp : StepInp) :
    countReset (sysStep sys inp).2 = 0 ∨
    (sysStep sys inp).1.leg.resolvedBy = some FinishKind.success := by
  unfold sysStep
  cases hb : inp.stopBefore with
  | false => simpa using sysFire_reset sys inp.fire inp.obs
  | true =>
    simp only [if_true, countReset_append]
    rcases sysFire_reset (sysStop sys).1 inp.fire inp.obs with h | h
    · left
      have h2 := (stopCall_counts sys.m sys.sched).2.2.2
      rw [sysStop_tr]
      omega
    · exact Or.inr h

-- Runner lemmas

theorem runLegAux_resolved (env : Nat → StepInp) (fuel i : Nat) (sys : Sys) (acc : List Effect)
    (h : sys.leg.resolvedBy.isSome) :
    runLegAux env fuel i sys acc = some (sys, acc) := by
  cases fuel <;> simp [runLegAux, h]

theorem runLegAux_ok (env : Nat → StepInp) (fuel : Nat) :
    ∀ (i : Nat) (sys : Sys) (acc : List Effect) (sysF : Sys) (tr : List Effect),
    runLegAux env fuel i sys acc = some (sysF, tr) →
    (sys.leg.resolvedBy.isSome → sys.m.intervalHandles = []) →
    sysF.leg.resolvedBy.isSome ∧ sysF.m.intervalHandles = [] := by
  induction fuel with
  | zero =>
    intro i sys acc sysF tr h hinv
    by_cases hr : sys.leg.resolvedBy.isSome
    · simp [runLegAux, hr] at h
      rcases h with ⟨h1, h2⟩
      subst h1
      subst h2
      exact ⟨hr, hinv hr⟩
    · simp [runLegAux, hr] at h
  | succ fuel ih =>
    intro i sys acc sysF tr h hinv
    by_cases hr : sys.leg.resolvedBy.isSome
    · simp [runLegAux, hr] at h
      rcases h with ⟨h1, h2⟩
      subst h1
      subst h2
      exact ⟨hr, hinv hr⟩
    · simp only [runLegAux, hr, if_false, Bool.false_eq_true] at h
      have hnone : sys.leg.resolvedBy = none := Option.not_isSome_iff_eq_none.mp hr
      exact ih _ _ _ _ _ h (sysStep_resolve_clears sys (env i) hnone)

theorem runLegAux_dist (env : Nat → StepInp) (fuel : Nat) :
    ∀ (i : Nat) (sys : Sys) (acc : List Effect) (sysF : Sys) (tr : List Effect),
    runLegAux env fuel i sys acc = some (sysF, tr) →
    sys.leg.distanceTraveled ≤ sysF.leg.distanceTraveled := by
  induction fuel with
  | zero =>
    intro i sys acc sysF tr h
    by_cases hr : sys.leg.resolvedBy.isSome <;> simp [runLegAux, hr] at h
    rcases h with ⟨h1, _⟩
    subst h1
    exact le_refl _
  | succ fuel ih =>
    intro i sys acc sysF tr h
    by_cases hr : sys.leg.resolvedBy.isSome
    · simp [runLegAux, hr] at h
      rcases h with ⟨h1, _⟩
      subst h1
      exact le_refl _
    · simp only [runLegAux, hr, if_false, Bool.false_eq_true] at h
      exact le_trans (sysStep_dist sys (env i)) (ih _ _ _ _ _ h)

theorem runLegAux_countOnComplete (env : Nat → StepInp) (fuel : Nat) :
    ∀ (i : Nat) (sys : Sys) (acc : List Effect) (sysF : Sys) (tr : List Effect),
    runLegAux env fuel i sys acc = some (sysF, tr) →
    countOnComplete acc = 0 → countOnComplete tr = 0 := by
  induction fuel with
  | zero =>
    intro i sys acc sysF tr h hacc
    by_cases hr : sys.leg.resolvedBy.isSome <;> simp [runLegAux, hr] at h
    rcases h with ⟨_, h2⟩
    subst h2
    exact hacc
  | succ fuel ih =>
    intro i sys acc sysF tr h hacc
    by_cases hr : sys.leg.resolvedBy.isSome
    · simp [runLegAux, hr] at h
      rcases h with ⟨_, h2⟩
      subst h2
      exact hacc
    · simp only [runLegAux, hr, if_false, Bool.false_eq_true] at h
      refine ih _ _ _ _ _ h ?_
      rw [countOnComplete_append, hacc, (sysStep_counts sys (env i)).1]

theorem runLegAux_countOnStart (env : Nat → StepInp) (fuel : Nat) :
    ∀ (i : Nat) (sys : Sys) (acc : List Effect) (sysF : Sys) (tr : List Effect),
    runLegAux env fuel i sys acc = some (sysF, tr) →
    countOnStart acc = 0 → countOnStart tr = 0 := by
  induction fuel with
  | zero =>
    intro i sys acc sysF tr h hacc
    by_cases hr : sys.leg.resolvedBy.isSome <;> simp [runLegAux, hr] at h
    rcases h with ⟨_, h2⟩
    subst h2
    exact hacc
  | succ fuel ih =>
    intro i sys acc sysF tr h hacc
    by_cases hr : sys.leg.resolvedBy.isSome
    · simp [runLegAux, hr] at h
      rcases h with ⟨_, h2⟩
      subst h2
      exact hacc
    · simp only [runLegAux, hr, if_false, Bool.false_eq_true] at h
      refine ih _ _ _ _ _ h ?_
      rw [countOnStart_append, hacc, (sysStep_counts sys (env i)).2]

theorem runLegAux_mem_acc (env : Nat → StepInp) (fuel : Nat) :
    ∀ (i : Nat) (sys : Sys) (acc : List Effect) (sysF : Sys) (tr : List Effect) (e : Effect),
    runLegAux env fuel i sys acc = some (sysF, tr) → e ∈ acc → e ∈ tr := by
  induction fuel with
  | zero =>
    intro i sys acc sysF tr e h he
    by_cases hr : sys.leg.resolvedBy.isSome <;> simp [runLegAux, hr] at h
    rcases h with ⟨_, h2⟩
    subst h2
    exact he
  | succ fuel ih =>
    intro i sys acc sysF tr e h he
    by_cases hr : sys.leg.resolvedBy.isSome
    · simp [runLegAux, hr] at h
      rcases h with ⟨_, h2⟩
      subst h2
      exact he
    · simp only [runLegAux, hr, if_false, Bool.false_eq_true] at h
      exact ih _ _ _ _ _ _ h (List.mem_append_left _ he)

theorem runLegAux_hasOnComplete (env : Nat → StepInp) (fuel : Nat) :
    ∀ (i : Nat) (sys : Sys) (acc : List Effect) (sysF : Sys) (tr : List Effect),
    runLegAux env fuel i sys acc = some (sysF, tr) →
    sysF.m.hasOnComplete = sys.m.hasOnComplete := by
  induction fuel with
  | zero =>
    intro i sys acc sysF tr h
    by_cases hr : sys.leg.resolvedBy.isSome <;> simp [runLegAux, hr] at h
    rcases h with ⟨h1, _⟩
    subst h1
    rfl
  | succ fuel ih =>
    intro i sys acc sysF tr h
    by_cases hr : sys.leg.resolvedBy.isSome
    · simp [runLegAux, hr] at h
      rcases h with ⟨h1, _⟩
      subst h1
      rfl
    · simp only [runLegAux, hr, if_false, Bool.false_eq_true] at h
      rw [ih _ _ _ _ _ h, sysStep_hasOnComplete]

theorem runLegAux_isStopped (env : Nat → StepInp) (fuel : Nat) :
    ∀ (i : Nat) (sys : Sys) (acc : List Effect) (sysF : Sys) (tr : List Effect),
    runLegAux env fuel i sys acc = some (sysF, tr) →
    sys.m.isStopped = true → sysF.m.isStopped = true := by
  induction fuel with
  | zero =>
    intro i sys acc sysF tr h hs
    by_cases hr : sys.leg.resolvedBy.isSome <;> simp [runLegAux, hr] at h
    rcases h with ⟨h1, _⟩
    subst h1
    exact hs
  | succ fuel ih =>
    intro i sys acc sysF tr h hs
    by_cases hr : sys.leg.resolvedBy.isSome
    · simp [runLegAux, hr] at h
      rcases h with ⟨h1, _⟩
      subst h1
      exact hs
    · simp only [runLegAux, hr, if_false, Bool.false_eq_true] at h
      refine ih _ _ _ _ _ h ?_
      rw [sysStep_isStopped, hs, Bool.true_or]

/-- If a run from an unresolved state ends in the abort resolution, no
`resetToDefaultValue` was ever emitted beyond the accumulator. -/
theorem runLegAux_reset (env : Nat → StepInp) (fuel : Nat) :
    ∀ (i : Nat) (sys : Sys) (acc : List Effect) (sysF : Sys) (tr : List Effect),
    runLegAux env fuel i sys acc = some (sysF, tr) →
    countReset acc = 0 → sysF.leg.resolvedBy = some FinishKind.abort →
    countReset tr = 0 := by
  induction fuel with
  | zero =>
    intro i sys acc sysF tr h hacc habort
    by_cases hr : sys.leg.resolvedBy.isSome <;> simp [runLegAux, hr] at h
    rcases h with ⟨_, h2⟩
    subst h2
    exact hacc
  | succ fuel ih =>
    intro i sys acc sysF tr h hacc habort
    by_cases hr : sys.leg.resolvedBy.isSome
    · simp [runLegAux, hr] at h
      rcases h with ⟨_, h2⟩
      subst h2
      exact hacc
    · simp only [runLegAux, hr, if_false, Bool.false_eq_true] at h
      rcases sysStep_reset sys (env i) with hz | hsucc
      · refine ih _ _ _ _ _ h ?_ habort
        rw [countReset_append, hacc, hz]
      · rw [runLegAux_resolved env fuel (i + 1) _ _ (by rw [hsucc]; rfl)] at h
        injection h with h'
        injection h' with h1 h2
        rw [← h1] at habort
        rw [hsucc] at habort
        cases habort


-- Setup, single-leg, and queue-drain lemmas

theorem setup_inv (m : MState) (s : Sched) (comp : Option EntityMovementComponent)
    (d : Dir) (dist : ℝ) (cj : Bool) (obs0 : Obs) (sys0 : Sys) (tr0 : List Effect)
    (h : setupLeg m s comp d dist cj obs0 = Except.ok (sys0, tr0)) :
    sys0.leg.resolvedBy.isSome → sys0.m.intervalHandles = [] := by
  unfold setupLeg at h
  by_cases hv : obs0.valid
  · simp only [hv, Bool.not_true, Bool.false_eq_true, if_false] at h
    cases comp with
    | none => cases h
    | some c =>
      simp only at h
      injection h with h1
      injection h1 with h2 h3
      rw [← h2]
      exact rotStep_resolve_clears _ _ rfl
  · simp only [Bool.not_eq_true] at hv
    simp only [hv, Bool.not_false, if_true] at h
    injection h with h1
    injection h1 with h2 h3
    rw [← h2]
    intro _
    rfl

theorem setup_counts (m : MState) (s : Sched) (comp : Option EntityMovementComponent)
    (d : Dir) (dist : ℝ) (cj : Bool) (obs0 : Obs) (sys0 : Sys) (tr0 : List Effect)
    (h : setupLeg m s comp d dist cj obs0 = Except.ok (sys0, tr0)) :
    countOnComplete tr0 = 0 ∧ countOnStart tr0 = 0 ∧ countReset tr0 = 0 := by
  unfold setupLeg at h
  by_cases hv : obs0.valid
  · simp only [hv, Bool.not_true, Bool.false_eq_true, if_false] at h
    cases comp with
    | none => cases h
    | some c =>
      simp only at h
      injection h with h1
      injection h1 with h2 h3
      rw [← h3]
      have hr := rotStep_counts (setupSys m s c d dist cj obs0) obs0
      simp [countOnComplete_append, countOnStart_append, countReset_append,
        countOnComplete, countOnStart, countReset, hr.1, hr.2.1, hr.2.2.1]
  · simp only [Bool.not_eq_true] at hv
    simp only [hv, Bool.not_false, if_true] at h
    injection h with h1
    injection h1 with h2 h3
    rw [← h3]
    simp [countOnComplete_clearEvents, countOnStart_clearEvents, countReset_clearEvents]

theorem setup_hasOnComplete (m : MState) (s : Sched) (comp : Option EntityMovementComponent)
    (d : Dir) (dist : ℝ) (cj : Bool) (obs0 : Obs) (sys0 : Sys) (tr0 : List Effect)
    (h : setupLeg m s comp d dist cj obs0 = Except.ok (sys0, tr0)) :
    sys0.m.hasOnComplete = m.hasOnComplete := by
  unfold setupLeg at h
  by_cases hv : obs0.valid
  · simp only [hv, Bool.not_true, Bool.false_eq_true, if_false] at h
    cases comp with
    | none => cases h
    | some c =>
      simp only at h
      injection h with h1
      injection h1 with h2 h3
      rw [← h2, rotStep_hasOnComplete]
      rfl
  · simp only [Bool.not_eq_true] at hv
    simp only [hv, Bool.not_false, if_true] at h
    injection h with h1
    injection h1 with h2 h3
    rw [← h2]
    rfl

theorem runLeg_ok (m : MState) (s : Sched) (comp : Option EntityMovementComponent)
    (d : Dir) (dist : ℝ) (cj : Bool) (obs0 : Obs) (env : Nat → StepInp) (fuel : Nat)
    (sysF : Sys) (trF : List Effect)
    (h : runLeg m s comp d dist cj obs0 env fuel = some (Except.ok (sysF, trF))) :
    sysF.leg.resolvedBy.isSome ∧ sysF.m.intervalHandles = [] := by
  unfold runLeg at h
  cases hs : setupLeg m s comp d dist cj obs0 with
  | error e => rw [hs] at h; cases h
  | ok pair =>
    obtain ⟨sys0, tr0⟩ := pair
    rw [hs] at h
    simp only [Option.map_eq_some'] at h
    obtain ⟨out, hrun, hok⟩ := h
    obtain ⟨sysO, trO⟩ := out
    injection hok with hok1
    injection hok1 with hok2 hok3
    rw [← hok2]
    exact runLegAux_ok env fuel 0 sys0 tr0 sysO trO hrun
      (setup_inv m s comp d dist cj obs0 sys0 tr0 hs)

theorem runLeg_hasOnComplete (m : MState) (s : Sched) (comp : Option EntityMovementComponent)
    (d : Dir) (dist : ℝ) (cj : Bool) (obs0 : Obs) (env : Nat → StepInp) (fuel : Nat)
    (sysF : Sys) (trF : List Effect)
    (h : runLeg m s comp d dist cj obs0 env fuel = some (Except.ok (sysF, trF))) :
    sysF.m.hasOnComplete = m.hasOnComplete := by
  unfold runLeg at h
  cases hs : setupLeg m s comp d dist cj obs0 with
  | error e => rw [hs] at h; cases h
  | ok pair =>
    obtain ⟨sys0, tr0⟩ := pair
    rw [hs] at h
    simp only [Option.map_eq_some'] at h
    obtain ⟨out, hrun, hok⟩ := h
    obtain ⟨sysO, trO⟩ := out
    injection hok with hok1
    injection hok1 with hok2 hok3
    rw [← hok2, runLegAux_hasOnComplete env fuel 0 sys0 tr0 sysO trO hrun]
    exact setup_hasOnComplete m s comp d dist cj obs0 sys0 tr0 hs

theorem runLeg_counts (m : MState) (s : Sched) (comp : Option EntityMovementComponent)
    (d : Dir) (dist : ℝ) (cj : Bool) (obs0 : Obs) (env : Nat → StepInp) (fuel : Nat)
    (sysF : Sys) (trF : List Effect)
    (h : runLeg m s comp d dist cj obs0 env fuel = some (Except.ok (sysF, trF))) :
    countOnComplete trF = 0 ∧ countOnStart trF = 0 := by
  unfold runLeg at h
  cases hs : setupLeg m s comp d dist cj obs0 with
  | error e => rw [hs] at h; cases h
  | ok pair =>
    obtain ⟨sys0, tr0⟩ := pair
    rw [hs] at h
    simp only [Option.map_eq_some'] at h
    obtain ⟨out, hrun, hok⟩ := h
    obtain ⟨sysO, trO⟩ := out
    injection hok with hok1
    injection hok1 with hok2 hok3
    rw [← hok3]
    have hset := setup_counts m s comp d dist cj obs0 sys0 tr0 hs
    exact ⟨runLegAux_countOnComplete env fuel 0 sys0 tr0 sysO trO hrun hset.1,
      runLegAux_countOnStart env fuel 0 sys0 tr0 sysO trO hrun hset.2.1⟩


theorem legTurn_stopped (m : MState) (s : Sched) (comp : Option EntityMovementComponent)
    (lc : LegCase) (h : m.isStopped = true) :
    ∃ m1 s1 tr, legTurn m s comp lc = some (Except.ok (m1, s1, tr)) ∧
      m1.isStopped = true ∧ m1.intervalHandles = [] ∧
      m1.hasOnComplete = m.hasOnComplete ∧
      countOnStart tr = 0 ∧ countImpulse tr = 0 ∧ countOnComplete tr = 0 := by
  cases hb : lc.stopBeforeTurn with
  | false =>
    refine ⟨clearHandles m, clearSched m.intervalHandles s, [] ++ clearEvents m.intervalHandles,
      ?_, ?_, rfl, rfl, ?_, ?_, ?_⟩
    · simp [legTurn, legTurnCore, hb, h]
    · simp [clearHandles, h]
    · simp [countOnStart_append, countOnStart_clearEvents, countOnStart]
    · simp [countImpulse_append, countImpulse_clearEvents, countImpulse]
    · simp [countOnComplete_append, countOnComplete_clearEvents, countOnComplete]
  | true =>
    refine ⟨clearHandles (stopCall m s).1,
      clearSched (stopCall m s).1.intervalHandles (stopCall m s).2.1,
      (stopCall m s).2.2 ++ clearEvents (stopCall m s).1.intervalHandles, ?_, rfl, rfl, rfl, ?_, ?_, ?_⟩
    · simp [legTurn, legTurnCore, hb, stopCall]
    · simp only [stopCall, clearHandles]
      cases m.hasOnStop <;>
        simp [countOnStart_append, countOnStart_clearEvents, countOnStart]
    · simp only [stopCall, clearHandles]
      cases m.hasOnStop <;>
        simp [countImpulse_append, countImpulse_clearEvents, countImpulse]
    · simp only [stopCall, clearHandles]
      cases m.hasOnStop <;>
        simp [countOnComplete_append, countOnComplete_clearEvents, countOnComplete]

theorem legTurn_invalid (m : MState) (s : Sched) (comp : Option EntityMovementComponent)
    (lc : LegCase) (h : lc.validAtTurn = false) :
    ∃ m1 s1 tr, legTurn m s comp lc = some (Except.ok (m1, s1, tr)) ∧
      m1.intervalHandles = [] ∧ m1.hasOnComplete = m.hasOnComplete ∧
      countOnStart tr = 0 ∧ countImpulse tr = 0 ∧ countOnComplete tr = 0 := by
  cases hb : lc.stopBeforeTurn with
  | false =>
    refine ⟨clearHandles m, clearSched m.intervalHandles s, [] ++ clearEvents m.intervalHandles,
      ?_, rfl, rfl, ?_, ?_, ?_⟩
    · simp [legTurn, legTurnCore, hb, h]
    · simp [countOnStart_append, countOnStart_clearEvents, countOnStart]
    · simp [countImpulse_append, countImpulse_clearEvents, countImpulse]
    · simp [countOnComplete_append, countOnComplete_clearEvents, countOnComplete]
  | true =>
    refine ⟨clearHandles (stopCall m s).1,
      clearSched (stopCall m s).1.intervalHandles (stopCall m s).2.1,
      (stopCall m s).2.2 ++ clearEvents (stopCall m s).1.intervalHandles, ?_, rfl, rfl, ?_, ?_, ?_⟩
    · simp [legTurn, legTurnCore, hb, stopCall]
    · simp only [stopCall, clearHandles]
      cases m.hasOnStop <;>
        simp [countOnStart_append, countOnStart_clearEvents, countOnStart]
    · simp only [stopCall, clearHandles]
      cases m.hasOnStop <;>
        simp [countImpulse_append, countImpulse_clearEvents, countImpulse]
    · simp only [stopCall, clearHandles]
      cases m.hasOnStop <;>
        simp [countOnComplete_append, countOnComplete_clearEvents, countOnComplete]


theorem legTurnCore_hasOnComplete (comp : Option EntityMovementComponent) (lc : LegCase)
    (m0 : MState) (s0 : Sched) (tr0 : List Effect) (m1 : MState) (s1 : Sched) (tr : List Effect)
    (h : legTurnCore comp lc m0 s0 tr0 = some (Except.ok (m1, s1, tr))) :
    m1.hasOnComplete = m0.hasOnComplete := by
  unfold legTurnCore at h
  split at h
  · simp only [Option.some.injEq, Except.ok.injEq, Prod.mk.injEq] at h
    obtain ⟨h1, -, -⟩ := h
    rw [← h1]
    rfl
  · split at h
    · cases h
    · simp at h
    · rename_i sys trR heq
      simp only [Option.some.injEq, Except.ok.injEq, Prod.mk.injEq] at h
      obtain ⟨h1, -, -⟩ := h
      rw [← h1]
      exact runLeg_hasOnComplete _ _ _ _ _ _ _ _ _ _ _ heq

theorem legTurnCore_countOnComplete (comp : Option EntityMovementComponent) (lc : LegCase)
    (m0 : MState) (s0 : Sched) (tr0 : List Effect) (m1 : MState) (s1 : Sched) (tr : List Effect)
    (h : legTurnCore comp lc m0 s0 tr0 = some (Except.ok (m1, s1, tr)))
    (h0 : countOnComplete tr0 = 0) : countOnComplete tr = 0 := by
  unfold legTurnCore at h
  split at h
  · simp only [Option.some.injEq, Except.ok.injEq, Prod.mk.injEq] at h
    obtain ⟨-, -, h3⟩ := h
    rw [← h3, countOnComplete_append, h0, countOnComplete_clearEvents]
  · split at h
    · cases h
    · simp at h
    · rename_i sys trR heq
      simp only [Option.some.injEq, Except.ok.injEq, Prod.mk.injEq] at h
      obtain ⟨-, -, h3⟩ := h
      rw [← h3, countOnComplete_append, countOnComplete_append, h0,
        (runLeg_counts _ _ _ _ _ _ _ _ _ _ _ heq).1]
      cases m0.hasOnStart <;> simp [countOnComplete]

theorem legTurn_hasOnComplete_ok (m : MState) (s : Sched) (comp : Option EntityMovementComponent)
    (lc : LegCase) (m1 : MState) (s1 : Sched) (tr : List Effect)
    (h : legTurn m s comp lc = some (Except.ok (m1, s1, tr))) :
    m1.hasOnComplete = m.hasOnComplete := by
  unfold legTurn at h
  cases hb : lc.stopBeforeTurn <;> rw [hb] at h <;>
    simp only [Bool.false_eq_true, if_false, if_true] at h
  · exact legTurnCore_hasOnComplete _ _ _ _ _ _ _ _ h
  · rw [legTurnCore_hasOnComplete _ _ _ _ _ _ _ _ h]
    rfl

theorem legTurn_countOnComplete_ok (m : MState) (s : Sched) (comp : Option EntityMovementComponent)
    (lc : LegCase) (m1 : MState) (s1 : Sched) (tr : List Effect)
    (h : legTurn m s comp lc = some (Except.ok (m1, s1, tr))) :
    countOnComplete tr = 0 := by
  unfold legTurn at h
  cases hb : lc.stopBeforeTurn <;> rw [hb] at h <;>
    simp only [Bool.false_eq_true, if_false, if_true] at h
  · exact legTurnCore_countOnComplete _ _ _ _ _ _ _ _ h rfl
  · exact legTurnCore_countOnComplete _ _ _ _ _ _ _ _ h (stopCall_counts m s).1

theorem drain_hasOnComplete (comp : Option EntityMovementComponent) (legs : List LegCase) :
    ∀ (m : MState) (s : Sched) (m1 : MState) (s1 : Sched) (tr : List Effect),
    drain comp m s legs = some (Except.ok (m1, s1, tr)) → m1.hasOnComplete = m.hasOnComplete := by
  induction legs with
  | nil =>
    intro m s m1 s1 tr h
    simp only [drain, Option.some.injEq, Except.ok.injEq, Prod.mk.injEq] at h
    obtain ⟨h1, -, -⟩ := h
    rw [← h1]
  | cons lc rest ih =>
    intro m s m1 s1 tr h
    unfold drain at h
    split at h
    · cases h
    · simp at h
    · rename_i mA sA trA heq
      split at h
      · cases h
      · simp at h
      · rename_i mB sB trB heqd
        simp only [Option.some.injEq, Except.ok.injEq, Prod.mk.injEq] at h
        obtain ⟨h1, -, -⟩ := h
        rw [← h1, ih mA sA mB sB trB heqd]
        exact legTurn_hasOnComplete_ok _ _ _ _ _ _ _ heq

theorem drain_countOnComplete (comp : Option EntityMovementComponent) (legs : List LegCase) :
    ∀ (m : MState) (s : Sched) (m1 : MState) (s1 : Sched) (tr : List Effect),
    drain comp m s legs = some (Except.ok (m1, s1, tr)) → countOnComplete tr = 0 := by
  induction legs with
  | nil =>
    intro m s m1 s1 tr h
    simp only [drain, Option.some.injEq, Except.ok.injEq, Prod.mk.injEq] at h
    obtain ⟨-, -, h3⟩ := h
    rw [← h3]
    rfl
  | cons lc rest ih =>
    intro m s m1 s1 tr h
    unfold drain at h
    split at h
    · cases h
    · simp at h
    · rename_i mA sA trA heq
      split at h
      · cases h
      · simp at h
      · rename_i mB sB trB heqd
        simp only [Option.some.injEq, Except.ok.injEq, Prod.mk.injEq] at h
        obtain ⟨-, -, h3⟩ := h
        rw [← h3, countOnComplete_append, ih mA sA mB sB trB heqd,
          legTurn_countOnComplete_ok _ _ _ _ _ _ _ heq]

theorem drain_stopped (comp : Option EntityMovementComponent) (legs : List LegCase) :
    ∀ (m : MState) (s : Sched), m.isStopped = true →
    ∃ m1 s1 tr, drain comp m s legs = some (Except.ok (m1, s1, tr)) ∧
      m1.isStopped = true ∧ m1.hasOnComplete = m.hasOnComplete ∧
      countOnStart tr = 0 ∧ countImpulse tr = 0 := by
  induction legs with
  | nil =>
    intro m s h
    exact ⟨m, s, [], rfl, h, rfl, rfl, rfl⟩
  | cons lc rest ih =>
    intro m s h
    obtain ⟨mA, sA, trA, heq, hstopA, -, hocA, hsA, hiA, -⟩ := legTurn_stopped m s comp lc h
    obtain ⟨mB, sB, trB, heqd, hstopB, hocB, hsB, hiB⟩ := ih mA sA hstopA
    refine ⟨mB, sB, trA ++ trB, ?_, hstopB, ?_, ?_, ?_⟩
    · unfold drain
      simp only [heq, heqd]
    · rw [hocB, hocA]
    · rw [countOnStart_append, hsA, hsB]
    · rw [countImpulse_append, hiA, hiB]

theorem drain_invalid (comp : Option EntityMovementComponent) (legs : List LegCase)
    (hall : ∀ lc ∈ legs, lc.validAtTurn = false) :
    ∀ (m : MState) (s : Sched),
    ∃ m1 s1 tr, drain comp m s legs = some (Except.ok (m1, s1, tr)) ∧
      m1.hasOnComplete = m.hasOnComplete ∧ countOnStart tr = 0 ∧ countImpulse tr = 0 := by
  induction legs with
  | nil =>
    intro m s
    exact ⟨m, s, [], rfl, rfl, rfl, rfl⟩
  | cons lc rest ih =>
    intro m s
    obtain ⟨mA, sA, trA, heq, -, hocA, hsA, hiA, -⟩ :=
      legTurn_invalid m s comp lc (hall lc (List.mem_cons_self lc rest))
    obtain ⟨mB, sB, trB, heqd, hocB, hsB, hiB⟩ :=
      ih (fun x hx => hall x (List.mem_cons_of_mem lc hx)) mA sA
    refine ⟨mB, sB, trA ++ trB, ?_, ?_, ?_, ?_⟩
    · unfold drain
      simp only [heq, heqd]
    · rw [hocB, hocA]
    · rw [countOnStart_append, hsA, hsB]
    · rw [countImpulse_append, hiA, hiB]


theorem rotStep_resolvedBy (sys : Sys) (obs : Obs) (h1 : sys.m.isStopped = false)
    (h2 : obs.valid = true) :
    (rotStep sys obs).1.leg.resolvedBy = sys.leg.resolvedBy := by
  unfold rotStep
  simp only [h1, h2, Bool.not_true, Bool.or_false, Bool.false_eq_true, if_false]
  split_ifs <;> rfl

/-- The concrete zero-distance leg setup used by several witnesses. -/
theorem cSetup9_eq :
    setupLeg cM cS (some ⟨some 1⟩) Dir.north 0 true cObsStart =
      Except.ok (⟨⟨false, [0], ⟨some true⟩, true, true, true⟩, ⟨1, some 0, none⟩,
        ⟨0, true, Vector3.scale (directions Dir.north) 1, ⟨0.5, 0, 0.5⟩, 0, false, true, none⟩⟩,
        [Effect.setCurrentValue 0,
         Effect.setRotation 0 (calculateYaw (Vector3.scale (directions Dir.north) 1))]) := by
  simp only [setupLeg, setupSys, rotStep, cM, cS, cObsStart, Vector3.center]
  norm_num

/-- Driving that leg one movement tick against an invalidated agent aborts
it. -/
theorem cRun9_eq :
    runLeg cM cS (some ⟨some 1⟩) Dir.north 0 true cObsStart cEnvInvalid 2 =
      some (Except.ok (cSysF9, cTrF9)) := by
  rw [runLeg, cSetup9_eq]
  norm_num [runLegAux, sysStep, sysFire, moveStep, clearHandles, clearSched, clearEvents,
    Sched.clearRun, resolveLeg, cEnvInvalid, cObsInvalid, cSysF9, cTrF9]

/-- Driving the concrete in-flight leg `cSys` one movement tick from the
moved position reaches the target and resolves by success. -/
theorem cRun6_eq : runLegAux cEnvMove 2 0 cSys [] = some (cSysF6, cTrF6) := by
  norm_num [runLegAux, sysStep, sysFire, moveStep, clearHandles, clearSched, clearEvents,
    Sched.clearRun, resolveLeg, cEnvMove, cObsMoved, cSys, cM6, cLeg, cSysF6, cTrF6,
    Vector3.center, Vector3.subtract, Vector3.length, Real.sqrt_one]

-- ### Claim theorems

/-- C8: for every Vector3 v and w, (v.add w).subtract w = v, and for every
scalar s ≠ 0, (v.scale s).scale (1/s) = v; exact over the reals. -/
theorem claim_C8 (v w : Vector3) (s : ℝ) (hs : s ≠ 0) :
    Vector3.subtract (Vector3.add v w) w = v ∧
    Vector3.scale (Vector3.scale v s) (1 / s) = v := by
  obtain ⟨vx, vy, vz⟩ := v
  obtain ⟨wx, wy, wz⟩ := w
  constructor
  · simp [Vector3.add, Vector3.subtract]
  · simp only [Vector3.scale, Vector3.mk.injEq]
    refine ⟨?_, ?_, ?_⟩ <;> field_simp

/-- Witness for C8 at v = (1,2,3), w = (4,5,6), s = 2. -/
theorem claim_C8_witness :
    Vector3.subtract (Vector3.add ⟨1, 2, 3⟩ ⟨4, 5, 6⟩) ⟨4, 5, 6⟩ = ⟨1, 2, 3⟩ ∧
    Vector3.scale (Vector3.scale ⟨1, 2, 3⟩ 2) (1 / 2) = ⟨1, 2, 3⟩ :=
  claim_C8 ⟨1, 2, 3⟩ ⟨4, 5, 6⟩ 2 (by norm_num)

/-- C7: on a movement tick with canJump enabled, an obstacle hit, air above
it, a grounded agent and no climb in progress, the step applies exactly the
upward impulse (0, 0.5, 0) and sets the climbing flag, regardless of every
other input (the rule is first in the transition chain). -/
theorem claim_C7 (sys : Sys) (obs : Obs)
    (h1 : sys.m.isStopped = false) (h2 : obs.valid = true)
    (h3 : sys.leg.canJump = true) (h4 : obs.rayHitsBlock = true)
    (h5 : obs.blockAboveIsAir = true) (h6 : obs.onGround = true)
    (h7 : sys.leg.climbing = false) :
    moveStep sys obs =
      ({ sys with leg := { sys.leg with climbing := true, wasOnGround := obs.onGround } },
       [Effect.applyImpulse ⟨0, 0.5, 0⟩]) := by
  unfold moveStep
  simp [h1, h2, h3, h4, h5, h6, h7]

/-- Witness for C7: the climb-start rule fires on a concrete in-flight
system facing an obstacle. -/
theorem claim_C7_witness :
    moveStep cSys cObsObstacle =
      ({ cSys with
         leg := { cSys.leg with climbing := true, wasOnGround := cObsObstacle.onGround } },
       [Effect.applyImpulse ⟨0, 0.5, 0⟩]) :=
  claim_C7 cSys cObsObstacle rfl rfl rfl rfl rfl rfl rfl

/-- C2 is wrong about the code: when the movement-component lookup yields
nothing, `executeMove` reads `defaultValue` off `undefined` and throws,
rejecting the leg's completion instead of falling back to 0.1; the 0.1
fallback is reachable only when the component exists but reports no default
value. -/
theorem claim_C2_bug :
    setupLeg cM cS none Dir.north 5 true cObsStart = Except.error () ∧
    (setupSysOf (setupLeg cM cS (some ⟨none⟩) Dir.north 5 true cObsStart)).map
      (fun sys => sys.leg.impulseVector) =
      some (Vector3.scale (directions Dir.north) 0.1) := by
  constructor
  · rfl
  · simp only [setupLeg, setupSys, rotStep, setupSysOf, cM, cS, cObsStart]
    norm_num


/-- C3: a queued leg whose turn arrives with the stopped flag set or the
agent invalid resolves immediately as the explicit no-op (clear tracked
handles, no onStart, no impulse); and once the manager is stopped, a whole
queued remainder drains with no onStart and no impulse at all. -/
theorem claim_C3 (m : MState) (s : Sched) (comp : Option EntityMovementComponent)
    (lc : LegCase) (mq : MState) (sq : Sched) (legs : List LegCase)
    (h1 : m.isStopped = true ∨ lc.validAtTurn = false)
    (h2 : lc.stopBeforeTurn = false)
    (h3 : mq.isStopped = true) :
    (legTurn m s comp lc =
      some (Except.ok (clearHandles m, clearSched m.intervalHandles s,
        clearEvents m.intervalHandles)) ∧
     (clearHandles m).intervalHandles = [] ∧
     countOnStart (clearEvents m.intervalHandles) = 0 ∧
     countImpulse (clearEvents m.intervalHandles) = 0) ∧
    ((outTrace (drain comp mq sq legs)).map countOnStart = some 0 ∧
     (outTrace (drain comp mq sq legs)).map countImpulse = some 0) := by
  constructor
  · refine ⟨?_, rfl, countOnStart_clearEvents _, countImpulse_clearEvents _⟩
    rcases h1 with h1 | h1
    · simp [legTurn, legTurnCore, h1, h2]
    · simp [legTurn, legTurnCore, h1, h2]
  · obtain ⟨m1, s1, tr, heq, -, -, hs0, hi0⟩ := drain_stopped comp legs mq sq h3
    rw [heq]
    exact ⟨by simp [outTrace, hs0], by simp [outTrace, hi0]⟩

/-- Witness for C3: a stopped manager no-ops a queued invalid leg and a
queued remainder. -/
theorem claim_C3_witness :
    (legTurn cMStopped cS none cLegInvalid =
      some (Except.ok (clearHandles cMStopped, clearSched cMStopped.intervalHandles cS,
        clearEvents cMStopped.intervalHandles)) ∧
     (clearHandles cMStopped).intervalHandles = [] ∧
     countOnStart (clearEvents cMStopped.intervalHandles) = 0 ∧
     countImpulse (clearEvents cMStopped.intervalHandles) = 0) ∧
    ((outTrace (drain none cMStopped cS [cLegInvalid])).map countOnStart = some 0 ∧
     (outTrace (drain none cMStopped cS [cLegInvalid])).map countImpulse = some 0) :=
  claim_C3 cMStopped cS none cLegInvalid cMStopped cS [cLegInvalid] (Or.inl rfl) rfl rfl

/-- C5: stop() sets the stopped flag, empties the tracked handle list, fires
onStop exactly once per call (also on a repeated call: no guard), and its
returned signal (the bare queue) resolves exactly when the signal start()
returns resolves. -/
theorem claim_C5 (m : MState) (s : Sched) (comp : Option EntityMovementComponent)
    (legs : List LegCase) (h : m.hasOnStop = true) :
    (stopCall m s).1.isStopped = true ∧
    (stopCall m s).1.intervalHandles = [] ∧
    countOnStop (stopCall m s).2.2 = 1 ∧
    countOnStop (stopCall (stopCall m s).1 (stopCall m s).2.1).2.2 = 1 ∧
    (stopCall (stopCall m s).1 (stopCall m s).2.1).1.intervalHandles = [] ∧
    ((stopReturn comp m s legs).isSome ↔ (startRun comp m s legs).isSome) := by
  refine ⟨rfl, rfl, ?_, ?_, rfl, ?_⟩
  · simp [stopCall, h, countOnStop_append, countOnStop_clearEvents, countOnStop]
  · simp [stopCall, clearHandles, h, countOnStop_append, countOnStop_clearEvents,
      countOnStop, clearEvents]
  · unfold stopReturn startRun
    cases hd : drain comp m s legs with
    | none => simp
    | some x =>
      cases x with
      | error e => simp
      | ok y =>
        obtain ⟨a, b, c⟩ := y
        simp

/-- Witness for C5 on a fresh manager with onStop registered and an empty
queue. -/
theorem claim_C5_witness :
    (stopCall cM cS).1.isStopped = true ∧
    (stopCall cM cS).1.intervalHandles = [] ∧
    countOnStop (stopCall cM cS).2.2 = 1 ∧
    countOnStop (stopCall (stopCall cM cS).1 (stopCall cM cS).2.1).2.2 = 1 ∧
    (stopCall (stopCall cM cS).1 (stopCall cM cS).2.1).1.intervalHandles = [] ∧
    ((stopReturn none cM cS []).isSome ↔ (startRun none cM cS []).isSome) :=
  claim_C5 cM cS none [] rfl

/-- C10: the stopped flag is never cleared: stop() sets it, every scheduling
step preserves it (it can only go from false to true via an injected stop),
and a drain started stopped stays stopped, no-opping every queued leg with
no onStart and no impulse. -/
theorem claim_C10 (m2 : MState) (s2 : Sched) (sys : Sys) (inp : StepInp)
    (comp : Option EntityMovementComponent) (m : MState) (s : Sched) (legs : List LegCase)
    (h : m.isStopped = true) :
    (stopCall m2 s2).1.isStopped = true ∧
    (sysStep sys inp).1.m.isStopped = (sys.m.isStopped || inp.stopBefore) ∧
    (outState (drain comp m s legs)).map (fun x => x.isStopped) = some true ∧
    (outTrace (drain comp m s legs)).map countOnStart = some 0 ∧
    (outTrace (drain comp m s legs)).map countImpulse = some 0 := by
  refine ⟨rfl, sysStep_isStopped sys inp, ?_, ?_, ?_⟩ <;>
  · obtain ⟨m1, s1, tr, heq, hst, -, hs0, hi0⟩ := drain_stopped comp legs m s h
    rw [heq]
    simp [outState, outTrace, hst, hs0, hi0]

/-- Witness for C10: a stopped manager with one queued leg. -/
theorem claim_C10_witness :
    (stopCall cM cS).1.isStopped = true ∧
    (sysStep cSys ⟨false, TaskKind.move, cObsInvalid⟩).1.m.isStopped =
      (cSys.m.isStopped || (⟨false, TaskKind.move, cObsInvalid⟩ : StepInp).stopBefore) ∧
    (outState (drain none cMStopped cS [cLegInvalid])).map (fun x => x.isStopped) = some true ∧
    (outTrace (drain none cMStopped cS [cLegInvalid])).map countOnStart = some 0 ∧
    (outTrace (drain none cMStopped cS [cLegInvalid])).map countImpulse = some 0 :=
  claim_C10 cM cS cSys ⟨false, TaskKind.move, cObsInvalid⟩ none cMStopped cS [cLegInvalid] rfl


/-- C4: whenever the signal start() returns resolves (drain succeeded), the
trace ends with onComplete, fired exactly once; and if every queued leg finds
the agent invalid at its turn, no onStart ever fires while onComplete still
does. -/
theorem claim_C4 (comp : Option EntityMovementComponent) (m : MState) (s : Sched)
    (legs : List LegCase) (m1 : MState) (s1 : Sched) (tr : List Effect)
    (h1 : m.hasOnComplete = true)
    (h2 : startRun comp m s legs = some (Except.ok (m1, s1, tr))) :
    countOnComplete tr = 1 ∧ tr.getLast? = some Effect.onComplete ∧
    (legs.all (fun lc => !lc.validAtTurn) = true → countOnStart tr = 0) := by
  unfold startRun at h2
  cases hd : drain comp m s legs with
  | none => rw [hd] at h2; cases h2
  | some x =>
    cases x with
    | error e => rw [hd] at h2; simp at h2
    | ok y =>
      obtain ⟨mA, sA, trA⟩ := y
      rw [hd] at h2
      have hoc : mA.hasOnComplete = true := by
        rw [drain_hasOnComplete comp legs m s mA sA trA hd, h1]
      simp only [hoc, if_true, Option.some.injEq, Except.ok.injEq, Prod.mk.injEq] at h2
      obtain ⟨-, -, h3⟩ := h2
      rw [← h3]
      refine ⟨?_, ?_, ?_⟩
      · rw [countOnComplete_append, drain_countOnComplete comp legs m s mA sA trA hd]
        rfl
      · rw [List.getLast?_append_cons]
        rfl
      · intro hall
        have hall2 : ∀ lc ∈ legs, lc.validAtTurn = false := by
          intro lc hlc
          have := List.all_eq_true.mp hall lc hlc
          simpa using this
        obtain ⟨mB, sB, trB, heqd, -, hsB, -⟩ := drain_invalid comp legs hall2 m s
        rw [heqd] at hd
        simp only [Option.some.injEq, Except.ok.injEq, Prod.mk.injEq] at hd
        obtain ⟨-, -, hdt⟩ := hd
        rw [countOnStart_append, ← hdt, hsB]
        rfl

/-- Witness for C4: a fresh manager drains two invalid legs and fires
onComplete exactly once, with no onStart. -/
theorem claim_C4_witness :
    countOnComplete [Effect.onComplete] = 1 ∧
    ([Effect.onComplete] : List Effect).getLast? = some Effect.onComplete ∧
    (([cLegInvalid, cLegInvalid] : List LegCase).all (fun lc => !lc.validAtTurn) = true →
      countOnStart [Effect.onComplete] = 0) :=
  claim_C4 none cM cS [cLegInvalid, cLegInvalid] cM cS [Effect.onComplete] rfl (by rfl)


/-- C1 (amended): at a valid leg setup the movement-interval handle is
recorded in the tracked handle set, but the pending rotation self-reschedule
handle (when the first rotation iteration reschedules) is NOT recorded; on
every exit path, once the leg resolves the tracked handle set is empty. -/
theorem claim_C1 (m : MState) (s : Sched) (c : EntityMovementComponent)
    (d : Dir) (dist : ℝ) (cj : Bool) (obs0 : Obs) (env : Nat → StepInp) (fuel : Nat)
    (sys0 : Sys) (tr0 : List Effect) (sysF : Sys) (trF : List Effect)
    (h1 : obs0.valid = true) (h2 : m.isStopped = false)
    (h3 : ∀ hh ∈ m.intervalHandles, hh < s.nextHandle)
    (h4 : setupLeg m s (some c) d dist cj obs0 = Except.ok (sys0, tr0))
    (h5 : runLeg m s (some c) d dist cj obs0 env fuel = some (Except.ok (sysF, trF))) :
    sys0.m.intervalHandles = m.intervalHandles ++ [s.nextHandle] ∧
    sys0.sched.moveTask = some s.nextHandle ∧
    (sys0.sched.rotTask = none ∨
      (sys0.sched.rotTask = some (s.nextHandle + 1) ∧
       s.nextHandle + 1 ∉ sys0.m.intervalHandles)) ∧
    sysF.leg.resolvedBy.isSome ∧ sysF.m.intervalHandles = [] := by
  have hrun := runLeg_ok m s (some c) d dist cj obs0 env fuel sysF trF h5
  unfold setupLeg at h4
  simp only [h1, Bool.not_true, Bool.false_eq_true, if_false] at h4
  injection h4 with h4a
  injection h4a with h4b h4c
  rw [← h4b]
  unfold rotStep
  have hcond : ((setupSys m s c d dist cj obs0).m.isStopped || !obs0.valid) = false := by
    simp [setupSys, h1, h2]
  simp only [hcond, Bool.false_eq_true, if_false]
  by_cases hdist : (setupSys m s c d dist cj obs0).leg.distanceTraveled <
      (setupSys m s c d dist cj obs0).leg.distance
  · rw [if_pos hdist]
    refine ⟨rfl, rfl, Or.inr ⟨rfl, ?_⟩, hrun.1, hrun.2⟩
    intro hmem
    simp only [setupSys, List.mem_append, List.mem_singleton] at hmem
    rcases hmem with hmem | hmem
    · have := h3 _ hmem
      omega
    · omega
  · rw [if_neg hdist]
    exact ⟨rfl, rfl, Or.inl rfl, hrun.1, hrun.2⟩

/-- Witness for C1 on a concrete zero-distance leg aborted by
invalidation. -/
theorem claim_C1_witness :
    (⟨⟨false, [0], ⟨some true⟩, true, true, true⟩, ⟨1, some 0, none⟩,
      ⟨0, true, Vector3.scale (directions Dir.north) 1, ⟨0.5, 0, 0.5⟩, 0, false, true, none⟩⟩ :
        Sys).m.intervalHandles = cM.intervalHandles ++ [cS.nextHandle] ∧
    (⟨⟨false, [0], ⟨some true⟩, true, true, true⟩, ⟨1, some 0, none⟩,
      ⟨0, true, Vector3.scale (directions Dir.north) 1, ⟨0.5, 0, 0.5⟩, 0, false, true, none⟩⟩ :
        Sys).sched.moveTask = some cS.nextHandle ∧
    ((⟨⟨false, [0], ⟨some true⟩, true, true, true⟩, ⟨1, some 0, none⟩,
      ⟨0, true, Vector3.scale (directions Dir.north) 1, ⟨0.5, 0, 0.5⟩, 0, false, true, none⟩⟩ :
        Sys).sched.rotTask = none ∨
      ((⟨⟨false, [0], ⟨some true⟩, true, true, true⟩, ⟨1, some 0, none⟩,
        ⟨0, true, Vector3.scale (directions Dir.north) 1, ⟨0.5, 0, 0.5⟩, 0, false, true, none⟩⟩ :
          Sys).sched.rotTask = some (cS.nextHandle + 1) ∧
       cS.nextHandle + 1 ∉ (⟨⟨false, [0], ⟨some true⟩, true, true, true⟩, ⟨1, some 0, none⟩,
        ⟨0, true, Vector3.scale (directions Dir.north) 1, ⟨0.5, 0, 0.5⟩, 0, false, true, none⟩⟩ :
          Sys).m.intervalHandles)) ∧
    cSysF9.leg.resolvedBy.isSome ∧ cSysF9.m.intervalHandles = [] :=
  claim_C1 cM cS ⟨some 1⟩ Dir.north 0 true cObsStart cEnvInvalid 2 _ _ cSysF9 cTrF9
    rfl rfl (by simp [cM]) cSetup9_eq cRun9_eq

/-- C1 as stated is false: right after a valid leg setup with a positive
target, the rotation loop has a live pending handle (handle 1) that is not
in the tracked handle set (which holds only the movement handle 0). -/
theorem claim_C1_counterexample :
    (setupSysOf (setupLeg cM cS (some ⟨some 1⟩) Dir.north 1 true cObsStart)).map
      (fun sys => (sys.sched.rotTask, sys.m.intervalHandles)) = some (some 1, [0]) ∧
    (1 : Nat) ∉ ([0] : List Nat) := by
  constructor
  · simp only [setupLeg, setupSys, rotStep, setupSysOf, cM, cS, cObsStart]
    norm_num
  · simp

/-- C9: a leg whose setup ran (valid agent) and whose promise resolved by
abort (stop or invalidation) has set the movement speed to zero and never
invoked resetToDefaultValue: the agent is left with speed state zero. -/
theorem claim_C9 (m : MState) (s : Sched) (comp : Option EntityMovementComponent)
    (d : Dir) (dist : ℝ) (cj : Bool) (obs0 : Obs) (env : Nat → StepInp) (fuel : Nat)
    (sysF : Sys) (trF : List Effect)
    (h1 : obs0.valid = true) (h2 : m.isStopped = false)
    (h3 : runLeg m s comp d dist cj obs0 env fuel = some (Except.ok (sysF, trF)))
    (h4 : sysF.leg.resolvedBy = some FinishKind.abort) :
    Effect.setCurrentValue 0 ∈ trF ∧ Effect.resetToDefaultValue ∉ trF := by
  unfold runLeg at h3
  cases hs : setupLeg m s comp d dist cj obs0 with
  | error e => rw [hs] at h3; cases h3
  | ok pair =>
    obtain ⟨sys0, tr0⟩ := pair
    rw [hs] at h3
    simp only [Option.map_eq_some'] at h3
    obtain ⟨out, hrun, hok⟩ := h3
    obtain ⟨sysO, trO⟩ := out
    injection hok with hok1
    injection hok1 with hok2 hok3
    unfold setupLeg at hs
    simp only [h1, Bool.not_true, Bool.false_eq_true, if_false] at hs
    cases comp with
    | none => cases hs
    | some c =>
      simp only at hs
      injection hs with hs1
      injection hs1 with hs2 hs3
      have hmem : Effect.setCurrentValue 0 ∈ tr0 := by
        rw [← hs3]
        simp
      have hcnt : countReset tr0 = 0 := by
        rw [← hs3, countReset_append]
        have := (rotStep_counts (setupSys m s c d dist cj obs0) obs0).2.2.1
        simp [countReset, this]
      have hres0 : sys0.leg.resolvedBy = none := by
        rw [← hs2, rotStep_resolvedBy _ _ (by simp [setupSys, h2]) h1]
        rfl
      constructor
      · rw [← hok3]
        exact runLegAux_mem_acc env fuel 0 sys0 tr0 sysO trO _ hrun hmem
      · rw [← hok3]
        refine countReset_zero_not_mem trO ?_
        refine runLegAux_reset env fuel 0 sys0 tr0 sysO trO hrun hcnt ?_
        rw [hok2]
        exact h4

/-- Witness for C9: the aborted zero-distance leg left a setCurrentValue 0
in its trace and never reset the speed. -/
theorem claim_C9_witness :
    Effect.setCurrentValue 0 ∈ cTrF9 ∧ Effect.resetToDefaultValue ∉ cTrF9 :=
  claim_C9 cM cS (some ⟨some 1⟩) Dir.north 0 true cObsStart cEnvInvalid 2 cSysF9 cTrF9
    rfl rfl cRun9_eq rfl


/-- C6: on a grounded, non-climbing movement tick with no climb trigger, the
displacement between the current and previous block-center samples is added
to the accumulator (never decreasing it); while the accumulator stays below
the target the full impulse is applied and the leg stays unresolved;
otherwise, and only then, the tick clears all tracked handles, resets the
movement speed to default, teleports to the block-centered current position
and resolves by success; across a whole run the accumulator never
decreases. -/
theorem claim_C6 (sys : Sys) (obs : Obs) (env : Nat → StepInp) (fuel i : Nat)
    (acc : List Effect) (sysF : Sys) (trF : List Effect)
    (h0 : sys.leg.resolvedBy = none)
    (h1 : sys.m.isStopped = false) (h2 : obs.valid = true) (h3 : obs.onGround = true)
    (h4 : sys.leg.climbing = false)
    (h5 : (sys.leg.canJump && obs.rayHitsBlock && obs.blockAboveIsAir) = false)
    (h6 : runLegAux env fuel i sys acc = some (sysF, trF)) :
    sys.leg.distanceTraveled ≤ sys.leg.distanceTraveled +
      Vector3.length (Vector3.subtract (Vector3.center obs.location) sys.leg.startPosition) ∧
    (sys.leg.distanceTraveled +
        Vector3.length (Vector3.subtract (Vector3.center obs.location) sys.leg.startPosition) <
        sys.leg.distance →
      moveStep sys obs =
        ({ sys with leg := { sys.leg with
            distanceTraveled := sys.leg.distanceTraveled +
              Vector3.length
                (Vector3.subtract (Vector3.center obs.location) sys.leg.startPosition),
            startPosition := Vector3.center obs.location,
            wasOnGround := obs.onGround } },
         [Effect.applyImpulse sys.leg.impulseVector])) ∧
    (¬ sys.leg.distanceTraveled +
        Vector3.length (Vector3.subtract (Vector3.center obs.location) sys.leg.startPosition) <
        sys.leg.distance →
      moveStep sys obs =
        ({ m := clearHandles sys.m,
           sched := clearSched sys.m.intervalHandles sys.sched,
           leg := { sys.leg with
             distanceTraveled := sys.leg.distanceTraveled +
               Vector3.length
                 (Vector3.subtract (Vector3.center obs.location) sys.leg.startPosition),
             startPosition := Vector3.center obs.location,
             wasOnGround := obs.onGround,
             resolvedBy := some FinishKind.success } },
         clearEvents sys.m.intervalHandles ++
           [Effect.resetToDefaultValue, Effect.teleport (Vector3.center obs.location)]) ∧
      (moveStep sys obs).1.m.intervalHandles = []) ∧
    ((moveStep sys obs).1.leg.resolvedBy.isSome →
      sys.leg.distance ≤ sys.leg.distanceTraveled +
        Vector3.length (Vector3.subtract (Vector3.center obs.location) sys.leg.startPosition)) ∧
    sys.leg.distanceTraveled ≤ sysF.leg.distanceTraveled := by
  have hred : moveStep sys obs =
      if sys.leg.distanceTraveled +
          Vector3.length (Vector3.subtract (Vector3.center obs.location) sys.leg.startPosition) <
          sys.leg.distance then
        ({ sys with leg := { sys.leg with
            distanceTraveled := sys.leg.distanceTraveled +
              Vector3.length
                (Vector3.subtract (Vector3.center obs.location) sys.leg.startPosition),
            startPosition := Vector3.center obs.location,
            wasOnGround := obs.onGround } },
         [Effect.applyImpulse sys.leg.impulseVector])
      else
        ({ m := clearHandles sys.m,
           sched := clearSched sys.m.intervalHandles sys.sched,
           leg := { sys.leg with
             distanceTraveled := sys.leg.distanceTraveled +
               Vector3.length
                 (Vector3.subtract (Vector3.center obs.location) sys.leg.startPosition),
             startPosition := Vector3.center obs.location,
             wasOnGround := obs.onGround,
             resolvedBy := some FinishKind.success } },
         clearEvents sys.m.intervalHandles ++
           [Effect.resetToDefaultValue, Effect.teleport (Vector3.center obs.location)]) := by
    unfold moveStep
    simp [h1, h2, h3, h4, h5]
  refine ⟨le_add_of_nonneg_right (length_nonneg _), ?_, ?_, ?_,
    runLegAux_dist env fuel i sys acc sysF trF h6⟩
  · intro hlt
    rw [hred, if_pos hlt]
  · intro hge
    rw [hred, if_neg hge]
    exact ⟨rfl, rfl⟩
  · intro hres
    by_cases hlt : sys.leg.distanceTraveled +
        Vector3.length (Vector3.subtract (Vector3.center obs.location) sys.leg.startPosition) <
        sys.leg.distance
    · rw [hred, if_pos hlt] at hres
      simp [h0] at hres
    · exact not_lt.mp hlt

/-- Witness for C6: the concrete in-flight leg meets its target on the next
grounded tick and resolves by success. -/
theorem claim_C6_witness :
    cSys.leg.distanceTraveled ≤ cSys.leg.distanceTraveled +
      Vector3.length
        (Vector3.subtract (Vector3.center cObsMoved.location) cSys.leg.startPosition) ∧
    (cSys.leg.distanceTraveled +
        Vector3.length
          (Vector3.subtract (Vector3.center cObsMoved.location) cSys.leg.startPosition) <
        cSys.leg.distance →
      moveStep cSys cObsMoved =
        ({ cSys with leg := { cSys.leg with
            distanceTraveled := cSys.leg.distanceTraveled +
              Vector3.length
                (Vector3.subtract (Vector3.center cObsMoved.location) cSys.leg.startPosition),
            startPosition := Vector3.center cObsMoved.location,
            wasOnGround := cObsMoved.onGround } },
         [Effect.applyImpulse cSys.leg.impulseVector])) ∧
    (¬ cSys.leg.distanceTraveled +
        Vector3.length
          (Vector3.subtract (Vector3.center cObsMoved.location) cSys.leg.startPosition) <
        cSys.leg.distance →
      moveStep cSys cObsMoved =
        ({ m := clearHandles cSys.m,
           sched := clearSched cSys.m.intervalHandles cSys.sched,
           leg := { cSys.leg with
             distanceTraveled := cSys.leg.distanceTraveled +
               Vector3.length
                 (Vector3.subtract (Vector3.center cObsMoved.location) cSys.leg.startPosition),
             startPosition := Vector3.center cObsMoved.location,
             wasOnGround := cObsMoved.onGround,
             resolvedBy := some FinishKind.success } },
         clearEvents cSys.m.intervalHandles ++
           [Effect.resetToDefaultValue, Effect.teleport (Vector3.center cObsMoved.location)]) ∧
      (moveStep cSys cObsMoved).1.m.intervalHandles = []) ∧
    ((moveStep cSys cObsMoved).1.leg.resolvedBy.isSome →
      cSys.leg.distance ≤ cSys.leg.distanceTraveled +
        Vector3.length
          (Vector3.subtract (Vector3.center cObsMoved.location) cSys.leg.startPosition)) ∧
    cSys.leg.distanceTraveled ≤ cSysF6.leg.distanceTraveled :=
  claim_C6 cSys cObsMoved cEnvMove 2 0 [] cSysF6 cTrF6 rfl rfl rfl rfl rfl rfl cRun6_eq

end EntityMover
